import Mathlib

/-!
Verification of the micromechanical Monte Carlo energy engine of ecmLab/firstPrinciple.

The repository holds near-duplicate MPI scripts (debug1/1/sporc_mpi6.py,
debug2/mac5.py, debug2/mac6.py, newTest/mac1.py, newTest/debug.py) sharing the
same algorithmic core.  This file is a shallow embedding of that core:

* `stiffnessEntry` / `precompute_stiffness_tensor` : the cubic stiffness tensor
  (precompute_stiffness_tensor in every script; division by a zero anisotropy
  parameter raises in Python, modelled with Option).
* `define_dimensionless_strains` : the three reference eigenstrain tensors
  (division by a zero reference shear raises, modelled with Option).
* `metropolis_prob` / `metropolis_accept` : the Metropolis acceptance rule
  inlined in monte_carlo_step of every script, with the exponent clamped by
  np.clip(delta_E / temperature, None, 700), i.e. min (delta_E / T) 700.
* `fftfreqZ`, `q_range`, `qvec` : the reciprocal grid np.fft.fftfreq(N, 1/(2 pi)).
* `christoffel_sporc` / `christoffel_mac` : the two acoustic-tensor contractions
  appearing in the two kernel builders (einsum "ijmn,m,n" resp. "imjn,m,n").
* `greens` : np.linalg.inv when the determinant is nonzero, else the zero matrix.
* `kernel_entry_sporc` / `kernel_entry_mac` and the two full builders: the two
  kernel assemblies (sporc_mpi6 einsum "mn,im,nj->" which sums over every index
  of its operands, versus the mac5/mac6 chain of intermediate contractions).
* `compute_elastic_energy` (+ mac5/mac6 normalized variants) : the rank-strided
  reciprocal-space energy sum; range(rank, N, size) is modelled as the residue
  filter index % size = rank, which coincides with it whenever rank < size, and
  np.allclose(q, 0) is modelled as q = 0 exactly (the grid spacing 2 pi / N is
  far above the allclose tolerance for any realistic N).
* `compute_strain_field`, `fftn` : the spin-to-strain lookup and the 3-axis DFT.
* `monte_carlo_step_sporc`, `sporc_par_step`, `mac5_par_step` : the Monte Carlo
  step of sporc_mpi6 (each rank draws its own proposal) and of mac5 (rank 0
  draws, broadcasts; note strain_field_new aliases strain_field in the source,
  so the site mutation persists on both branches).
-/

namespace ECM

abbrev Stiff := Fin 3 → Fin 3 → Fin 3 → Fin 3 → ℝ

abbrev Grid (N : ℕ) := Fin N × Fin N × Fin N

/-- Entry (i,j,k,l) of the cubic stiffness tensor built by
precompute_stiffness_tensor: C11 = 4 / anisoPar, C12 = C11 / 2, C44 = 1;
first branch i = j and k = l, second branch i = k and j = l, else zero. -/
noncomputable def stiffnessEntry (anisoPar : ℝ) (i j k l : Fin 3) : ℝ :=
  if i = j ∧ k = l then (if i = k then 4 / anisoPar else 4 / anisoPar / 2)
  else if i = k ∧ j = l then (if i ≠ j then 1 else 0) else 0

/-- precompute_stiffness_tensor: the Python body divides 4 by anisoPar, which
raises ZeroDivisionError exactly when anisoPar = 0; modelled with Option. -/
noncomputable def precompute_stiffness_tensor (anisoPar : ℝ) : Option Stiff :=
  if anisoPar = 0 then none else some (stiffnessEntry anisoPar)

/-- define_dimensionless_strains: factor = epsilon_a / gamma_0 (raises exactly
when gamma_0 = 0, modelled with Option); the three diagonal reference strains. -/
noncomputable def define_dimensionless_strains (epsilon_a gamma_0 : ℝ) :
    Option ((Fin 3 → Fin 3 → ℝ) × (Fin 3 → Fin 3 → ℝ) × (Fin 3 → Fin 3 → ℝ)) :=
  if gamma_0 = 0 then none
  else
    some (fun i j => !![1 + epsilon_a / gamma_0, 0, 0; 0, epsilon_a / gamma_0, 0;
                        0, 0, epsilon_a / gamma_0] i j,
          fun i j => !![epsilon_a / gamma_0, 0, 0; 0, 1 + epsilon_a / gamma_0, 0;
                        0, 0, epsilon_a / gamma_0] i j,
          fun i j => !![epsilon_a / gamma_0, 0, 0; 0, epsilon_a / gamma_0, 0;
                        0, 0, 1 + epsilon_a / gamma_0] i j)

/-- Metropolis acceptance probability of monte_carlo_step: 1 when the energy
difference is not positive, else exp of minus the clamped exponent
np.clip(delta_E / temperature, None, 700) = min (delta_E / temperature) 700. -/
noncomputable def metropolis_prob (delta_E temperature : ℝ) : ℝ :=
  if delta_E > 0 then Real.exp (-(min (delta_E / temperature) 700)) else 1

/-- The accept test random.random() < prob of monte_carlo_step, with u the
uniform draw. -/
noncomputable def metropolis_accept (u delta_E temperature : ℝ) : Prop :=
  u < metropolis_prob delta_E temperature

lemma metropolis_prob_pos (delta_E temperature : ℝ) :
    0 < metropolis_prob delta_E temperature := by
  unfold metropolis_prob
  split_ifs
  · exact Real.exp_pos _
  · norm_num

end ECM

/-- C2: for every proposal the acceptance probability is exactly 1 when the
energy difference is nonpositive, otherwise exp of minus the exponent clamped
at 700, i.e. exp (-(min (delta_E / T) 700)); the proposal is accepted iff the
uniform draw is below this probability. -/
theorem ECM.metropolis_acceptance_rule (dE T u : ℝ) :
    (dE ≤ 0 → ECM.metropolis_prob dE T = 1)
    ∧ (0 < dE → ECM.metropolis_prob dE T = Real.exp (-(min (dE / T) 700)))
    ∧ (ECM.metropolis_accept u dE T ↔ u < ECM.metropolis_prob dE T) := by
  refine ⟨fun h => ?_, fun h => ?_, Iff.rfl⟩
  · unfold ECM.metropolis_prob
    rw [if_neg (not_lt.mpr h)]
  · unfold ECM.metropolis_prob
    rw [if_pos h]

/-- Witness for C2 at dE = -1, T = 1, u = 0. -/
theorem ECM.metropolis_acceptance_rule_witness :
    ((-1 : ℝ) ≤ 0) ∧ ECM.metropolis_prob (-1) 1 = 1 :=
  ⟨by norm_num, (ECM.metropolis_acceptance_rule (-1) 1 0).1 (by norm_num)⟩

/-- C10: for an energy-raising proposal at positive temperature the computed
probability equals exp (-(min (dE / T) 700)), hence is at least exp (-700) and
in particular strictly positive: the clamp is from above only, so no proposal
ever gets acceptance probability zero. -/
theorem ECM.clamped_acceptance_probability_positive (dE T : ℝ)
    (hdE : 0 < dE) (hT : 0 < T) :
    ECM.metropolis_prob dE T = Real.exp (-(min (dE / T) 700))
    ∧ Real.exp (-700) ≤ ECM.metropolis_prob dE T
    ∧ 0 < ECM.metropolis_prob dE T := by
  have h : ECM.metropolis_prob dE T = Real.exp (-(min (dE / T) 700)) := by
    unfold ECM.metropolis_prob
    rw [if_pos hdE]
  refine ⟨h, ?_, ?_⟩
  · rw [h]
    exact Real.exp_le_exp.mpr (neg_le_neg (min_le_right _ _))
  · rw [h]
    exact Real.exp_pos _

/-- Witness for C10 at dE = 1, T = 1. -/
theorem ECM.clamped_acceptance_probability_positive_witness :
    (0 < (1 : ℝ)) ∧ (0 < (1 : ℝ))
    ∧ (ECM.metropolis_prob 1 1 = Real.exp (-(min ((1 : ℝ) / 1) 700))
        ∧ Real.exp (-700) ≤ ECM.metropolis_prob 1 1
        ∧ 0 < ECM.metropolis_prob 1 1) :=
  ⟨one_pos, one_pos,
    ECM.clamped_acceptance_probability_positive 1 1 one_pos one_pos⟩

/-- C6: for every anisotropy parameter a > 0 the stiffness tensor has
C i i i i = 4 / a, C i i j j = 2 / a for i different from j,
C i j i j = 1 for i different from j, zero in every other entry, and is
symmetric under the simultaneous swap of the (i,j) and (k,l) index pairs. -/
theorem ECM.stiffness_tensor_entries (a : ℝ) (ha : 0 < a) :
    (∀ i : Fin 3, ECM.stiffnessEntry a i i i i = 4 / a)
    ∧ (∀ i j : Fin 3, i ≠ j → ECM.stiffnessEntry a i i j j = 2 / a)
    ∧ (∀ i j : Fin 3, i ≠ j → ECM.stiffnessEntry a i j i j = 1)
    ∧ (∀ i j k l : Fin 3, ¬(i = j ∧ k = l) → ¬(i = k ∧ j = l) →
        ECM.stiffnessEntry a i j k l = 0)
    ∧ (∀ i j k l : Fin 3,
        ECM.stiffnessEntry a i j k l = ECM.stiffnessEntry a k l i j) := by
  have ha0 : a ≠ 0 := ne_of_gt ha
  refine ⟨fun i => ?_, fun i j hij => ?_, fun i j hij => ?_,
    fun i j k l h1 h2 => ?_, fun i j k l => ?_⟩
  · unfold ECM.stiffnessEntry
    rw [if_pos ⟨rfl, rfl⟩, if_pos rfl]
  · unfold ECM.stiffnessEntry
    rw [if_pos ⟨rfl, rfl⟩, if_neg hij]
    field_simp
    ring
  · unfold ECM.stiffnessEntry
    rw [if_neg (fun h => hij h.1), if_pos ⟨rfl, rfl⟩, if_pos hij]
  · unfold ECM.stiffnessEntry
    rw [if_neg h1, if_neg h2]
  · fin_cases i <;> fin_cases j <;> fin_cases k <;> fin_cases l <;> rfl

/-- Witness for C6 at a = 1 and concrete indices. -/
theorem ECM.stiffness_tensor_entries_witness :
    (0 < (1 : ℝ))
    ∧ ECM.stiffnessEntry 1 0 0 0 0 = 4 / 1
    ∧ ECM.stiffnessEntry 1 0 0 1 1 = 2 / 1
    ∧ ECM.stiffnessEntry 1 0 1 0 1 = 1
    ∧ ECM.stiffnessEntry 1 0 1 2 0 = 0
    ∧ ECM.stiffnessEntry 1 0 1 1 0 = ECM.stiffnessEntry 1 1 0 0 1 :=
  ⟨one_pos, (ECM.stiffness_tensor_entries 1 one_pos).1 0,
    (ECM.stiffness_tensor_entries 1 one_pos).2.1 0 1 (by decide),
    (ECM.stiffness_tensor_entries 1 one_pos).2.2.1 0 1 (by decide),
    (ECM.stiffness_tensor_entries 1 one_pos).2.2.2.1 0 1 2 0
      (by decide) (by decide),
    (ECM.stiffness_tensor_entries 1 one_pos).2.2.2.2 0 1 1 0⟩

/-- C7 counterexample: at anisoPar = -1 the material model does not fail
(4 / (-1) is an ordinary division), although -1 is nonpositive; so the
claimed equivalence of failure with a being nonpositive or gamma_0 zero is
false.  The strains also succeed at the run parameters 0.1 and 0.4. -/
theorem ECM.negative_anisotropy_does_not_fail :
    ((-1 : ℝ) ≤ 0)
    ∧ (ECM.precompute_stiffness_tensor (-1)).isSome = true
    ∧ (ECM.define_dimensionless_strains (1 / 10) (2 / 5)).isSome = true := by
  refine ⟨by norm_num, ?_, ?_⟩
  · unfold ECM.precompute_stiffness_tensor
    rw [if_neg (by norm_num : (-1 : ℝ) ≠ 0)]
    rfl
  · unfold ECM.define_dimensionless_strains
    rw [if_neg (by norm_num : (2 / 5 : ℝ) ≠ 0)]
    rfl

/-- C7 amended: the material model fails with a domain error iff the anisotropy
parameter is exactly 0 (for the stiffness tensor) or the reference shear is 0
(for the strains); otherwise both succeed. -/
theorem ECM.material_model_failure_iff (a epsilon_a gamma_0 : ℝ) :
    ((ECM.precompute_stiffness_tensor a).isSome ↔ a ≠ 0)
    ∧ ((ECM.define_dimensionless_strains epsilon_a gamma_0).isSome ↔
        gamma_0 ≠ 0) := by
  constructor
  · unfold ECM.precompute_stiffness_tensor
    split_ifs with h <;> simp [h]
  · unfold ECM.define_dimensionless_strains
    split_ifs with h <;> simp [h]

namespace ECM

/-- Integer FFT frequency of index i on an N-point grid, as produced by
np.fft.fftfreq: i for i below (N+1)/2, else i - N. -/
def fftfreqZ (N : ℕ) (i : Fin N) : ℤ :=
  if (i : ℤ) < ((N : ℤ) + 1) / 2 then (i : ℤ) else (i : ℤ) - (N : ℤ)

/-- One component of the wavevector grid: fftfreq(N, d = 1/(2 pi)) gives the
integer frequency times 2 pi / N. -/
noncomputable def q_range (N : ℕ) (i : Fin N) : ℝ :=
  2 * Real.pi / (N : ℝ) * ((fftfreqZ N i : ℤ) : ℝ)

/-- The wavevector at grid point (ix, iy, iz) (meshgrid with indexing "ij",
stacked on the last axis). -/
noncomputable def qvec (N : ℕ) (ix iy iz : Fin N) : Fin 3 → ℝ :=
  ![q_range N ix, q_range N iy, q_range N iz]

/-- np.linalg.norm of a 3-vector. -/
noncomputable def vnorm (v : Fin 3 → ℝ) : ℝ :=
  Real.sqrt (v 0 ^ 2 + v 1 ^ 2 + v 2 ^ 2)

/-- k / np.linalg.norm(k), the unit direction. -/
noncomputable def unitVec (v : Fin 3 → ℝ) : Fin 3 → ℝ :=
  fun m => v m / vnorm v

/-- Acoustic tensor of sporc_mpi6: einsum "ijmn,m,n->ij", contracting the last
two slots of the stiffness tensor with the direction. -/
noncomputable def christoffel_sporc (C : Stiff) (n : Fin 3 → ℝ) :
    Matrix (Fin 3) (Fin 3) ℝ :=
  Matrix.of fun i j => ∑ m : Fin 3, ∑ p : Fin 3, C i j m p * n m * n p

/-- Acoustic tensor of mac5/mac6: einsum "imjn,m,n->ij", contracting the
second and fourth slots of the stiffness tensor with the direction. -/
noncomputable def christoffel_mac (C : Stiff) (n : Fin 3 → ℝ) :
    Matrix (Fin 3) (Fin 3) ℝ :=
  Matrix.of fun i j => ∑ m : Fin 3, ∑ p : Fin 3, C i m j p * n m * n p

/-- np.linalg.inv(G_inv) if np.linalg.det(G_inv) != 0 else np.zeros((3, 3)). -/
noncomputable def greens (A : Matrix (Fin 3) (Fin 3) ℝ) :
    Matrix (Fin 3) (Fin 3) ℝ :=
  if A.det = 0 then 0 else A⁻¹

/-- Kernel entry of sporc_mpi6: the stiffness entry minus
einsum("mn,im,nj->", G, C[:,:,i,j], C[:,:,k,l]).  The output spec of that
einsum is a scalar, so numpy sums over ALL of m, n, and the first slots of
both stiffness slices: the direction vector does not appear. -/
noncomputable def kernel_entry_sporc (C : Stiff) (n : Fin 3 → ℝ)
    (i j k l : Fin 3) : ℝ :=
  C i j k l -
    ∑ m : Fin 3, ∑ p : Fin 3,
      greens (christoffel_sporc C n) m p
        * (∑ a : Fin 3, C a m i j) * (∑ b : Fin 3, C p b k l)

/-- Kernel entry of mac5/mac6: intermediate_1 = einsum("p,pqij->qij", n, C),
intermediate_2 = einsum("qij,qr->ijr", intermediate_1, G),
intermediate_3 = einsum("rskl,s->rkl", C, n), and the entry is
C minus einsum("ijr,rkl->ijkl", intermediate_2, intermediate_3). -/
noncomputable def kernel_entry_mac (C : Stiff) (n : Fin 3 → ℝ)
    (i j k l : Fin 3) : ℝ :=
  C i j k l -
    ∑ r : Fin 3,
      (∑ q : Fin 3, (∑ p : Fin 3, n p * C p q i j)
          * greens (christoffel_mac C n) q r)
        * (∑ s : Fin 3, C r s k l * n s)

/-- Modelled from the spec: the kernel formula B(q) = C - C:n . G . n:C, the
stiffness tensor minus its projection through the Green operator G, with the
unit direction contracted on both sides of G.  This follows the words of the
spec (section 4.2) and is compared against the two builders in the code. -/
noncomputable def spec_kernel_formula (C : Stiff) (n : Fin 3 → ℝ)
    (G : Matrix (Fin 3) (Fin 3) ℝ) (i j k l : Fin 3) : ℝ :=
  C i j k l -
    ∑ p : Fin 3, ∑ q : Fin 3, ∑ r : Fin 3, ∑ s : Fin 3,
      n p * C p q i j * G q r * (C r s k l * n s)

/-- The sporc_mpi6 kernel builder at one grid point: zero when the wavevector
norm is zero (the loop skips the point and the array stays zero), else the
assembled entry at the unit direction. -/
noncomputable def precompute_reciprocal_space_and_kernel_sporc (N : ℕ)
    (C : Stiff) (ix iy iz : Fin N) (i j k l : Fin 3) : ℝ :=
  if vnorm (qvec N ix iy iz) = 0 then 0
  else kernel_entry_sporc C (unitVec (qvec N ix iy iz)) i j k l

/-- The mac5/mac6 kernel builder at one grid point. -/
noncomputable def precompute_reciprocal_space_and_kernel_mac (N : ℕ)
    (C : Stiff) (ix iy iz : Fin N) (i j k l : Fin 3) : ℝ :=
  if vnorm (qvec N ix iy iz) = 0 then 0
  else kernel_entry_mac C (unitVec (qvec N ix iy iz)) i j k l

end ECM

/-- C9: the stiffness tensor lacks the minor symmetries: for every a and all
distinct i, j one has C i j i j = 1 while C i j j i = 0 and C j i i j = 0, so
the tensor is not invariant under swapping the indices within a pair, and the
two acoustic-tensor contractions used by the two builders disagree already at
the direction (1,0,0) for a = 1. -/
theorem ECM.stiffness_minor_asymmetry :
    (∀ (a : ℝ) (i j : Fin 3), i ≠ j →
        ECM.stiffnessEntry a i j i j = 1
        ∧ ECM.stiffnessEntry a i j j i = 0
        ∧ ECM.stiffnessEntry a j i i j = 0)
    ∧ ECM.christoffel_sporc (ECM.stiffnessEntry 1) ![1, 0, 0]
        ≠ ECM.christoffel_mac (ECM.stiffnessEntry 1) ![1, 0, 0] := by
  constructor
  · intro a i j hij
    refine ⟨?_, ?_, ?_⟩
    · unfold ECM.stiffnessEntry
      rw [if_neg (fun h => hij h.1), if_pos ⟨rfl, rfl⟩, if_pos hij]
    · unfold ECM.stiffnessEntry
      rw [if_neg (fun h => hij h.1), if_neg (fun h => hij h.1)]
    · unfold ECM.stiffnessEntry
      rw [if_neg (fun h => hij h.1.symm), if_neg (fun h => hij h.1.symm)]
  · intro h
    have h11 := congrFun (congrFun h 1) 1
    have hs : ECM.christoffel_sporc (ECM.stiffnessEntry 1) ![1, 0, 0] 1 1
        = 2 := by
      unfold ECM.christoffel_sporc
      norm_num [Fin.sum_univ_three, ECM.stiffnessEntry]
    have hm : ECM.christoffel_mac (ECM.stiffnessEntry 1) ![1, 0, 0] 1 1
        = 1 := by
      unfold ECM.christoffel_mac
      norm_num [Fin.sum_univ_three, ECM.stiffnessEntry]
    rw [hs, hm] at h11
    norm_num at h11

/-- Witness for C9 at a = 1, i = 0, j = 1. -/
theorem ECM.stiffness_minor_asymmetry_witness :
    ECM.stiffnessEntry 1 0 1 0 1 = 1
    ∧ ECM.stiffnessEntry 1 0 1 1 0 = 0
    ∧ ECM.stiffnessEntry 1 1 0 0 1 = 0 :=
  ECM.stiffness_minor_asymmetry.1 1 0 1 (by decide)

namespace ECM

/-- compute_elastic_energy: the rank-strided sum over the first spectral axis
(range(rank, N, size), modelled as the residue class index % size = rank,
identical to the strided range whenever rank < size), full range of the other
two axes, skipping the zero wavevector, of the real part of the bilinear
contraction einsum("ij,ijkl,kl->", strain_ft, B, conj strain_ft). -/
noncomputable def compute_elastic_energy (N : ℕ) (q_grid : Grid N → Fin 3 → ℝ)
    (B : Grid N → Fin 3 → Fin 3 → Fin 3 → Fin 3 → ℝ)
    (strain_ft : Grid N → Fin 3 → Fin 3 → ℂ) (rank size : ℕ) : ℝ :=
  ∑ qx ∈ Finset.univ.filter (fun qx : Fin N => (qx : ℕ) % size = rank),
    ∑ qy : Fin N, ∑ qz : Fin N,
      if q_grid (qx, qy, qz) = 0 then 0
      else
        (∑ i : Fin 3, ∑ j : Fin 3, ∑ k : Fin 3, ∑ l : Fin 3,
          strain_ft (qx, qy, qz) i j * ((B (qx, qy, qz) i j k l : ℝ) : ℂ)
            * (starRingEnd ℂ) (strain_ft (qx, qy, qz) k l)).re

/-- The mac5 variant: the local sum additionally divided by 16 pi^3. -/
noncomputable def compute_elastic_energy_mac5 (N : ℕ)
    (q_grid : Grid N → Fin 3 → ℝ)
    (B : Grid N → Fin 3 → Fin 3 → Fin 3 → Fin 3 → ℝ)
    (strain_ft : Grid N → Fin 3 → Fin 3 → ℂ) (rank size : ℕ) : ℝ :=
  compute_elastic_energy N q_grid B strain_ft rank size / (16 * Real.pi ^ 3)

/-- The mac6 variant: the local sum additionally divided by 2 N^3. -/
noncomputable def compute_elastic_energy_mac6 (N : ℕ)
    (q_grid : Grid N → Fin 3 → ℝ)
    (B : Grid N → Fin 3 → Fin 3 → Fin 3 → Fin 3 → ℝ)
    (strain_ft : Grid N → Fin 3 → Fin 3 → ℂ) (rank size : ℕ) : ℝ :=
  compute_elastic_energy N q_grid B strain_ft rank size / (2 * (N : ℝ) ^ 3)

end ECM

/-- C5: for every worker count W of at least 1, the sum over ranks 0..W-1 of
the per-rank partial elastic energies (each rank owning the first-axis indices
congruent to its rank mod W, skipping the zero wavevector) equals the total a
single worker computes over all nonzero wavevectors; likewise for the mac6
normalized variant, so the reduced global energy does not depend on W. -/
theorem ECM.elastic_energy_partition (N : ℕ) (q_grid : ECM.Grid N → Fin 3 → ℝ)
    (B : ECM.Grid N → Fin 3 → Fin 3 → Fin 3 → Fin 3 → ℝ)
    (strain_ft : ECM.Grid N → Fin 3 → Fin 3 → ℂ) (W : ℕ) (hW : 0 < W) :
    (∑ r ∈ Finset.range W,
        ECM.compute_elastic_energy N q_grid B strain_ft r W
      = ECM.compute_elastic_energy N q_grid B strain_ft 0 1)
    ∧ (∑ r ∈ Finset.range W,
        ECM.compute_elastic_energy_mac6 N q_grid B strain_ft r W
      = ECM.compute_elastic_energy_mac6 N q_grid B strain_ft 0 1) := by
  have key : ∑ r ∈ Finset.range W,
      ECM.compute_elastic_energy N q_grid B strain_ft r W
      = ECM.compute_elastic_energy N q_grid B strain_ft 0 1 := by
    unfold ECM.compute_elastic_energy
    have h1 : Finset.univ.filter (fun qx : Fin N => (qx : ℕ) % 1 = 0)
        = Finset.univ := by
      apply Finset.filter_true_of_mem
      intro x _
      exact Nat.mod_one _
    rw [h1]
    exact Finset.sum_fiberwise_of_maps_to
      (fun x _ => Finset.mem_range.mpr (Nat.mod_lt _ hW)) _
  refine ⟨key, ?_⟩
  unfold ECM.compute_elastic_energy_mac6
  rw [← Finset.sum_div, key]

/-- Witness for C5 at N = 1, W = 2, with zero grid, kernel and spectrum. -/
theorem ECM.elastic_energy_partition_witness :
    (0 < 2)
    ∧ (∑ r ∈ Finset.range 2,
        ECM.compute_elastic_energy 1 (fun _ _ => 0) (fun _ _ _ _ _ => 0)
          (fun _ _ _ => 0) r 2
      = ECM.compute_elastic_energy 1 (fun _ _ => 0) (fun _ _ _ _ _ => 0)
          (fun _ _ _ => 0) 0 1) :=
  ⟨two_pos,
    (ECM.elastic_energy_partition 1 (fun _ _ => 0) (fun _ _ _ _ _ => 0)
      (fun _ _ _ => 0) 2 two_pos).1⟩

namespace ECM

lemma q_range_two_one : q_range 2 1 = -Real.pi := by
  unfold q_range fftfreqZ
  norm_num

lemma q_range_two_zero : q_range 2 0 = 0 := by
  unfold q_range fftfreqZ
  norm_num

lemma qvec_two_eval : qvec 2 1 0 0 = ![-Real.pi, 0, 0] := by
  unfold qvec
  rw [q_range_two_one, q_range_two_zero]

lemma vnorm_qvec_two : vnorm (qvec 2 1 0 0) = Real.pi := by
  rw [qvec_two_eval]
  unfold vnorm
  norm_num [Real.sqrt_sq Real.pi_pos.le]

lemma unitVec_qvec_two : unitVec (qvec 2 1 0 0) = ![-1, 0, 0] := by
  funext m
  unfold unitVec
  rw [vnorm_qvec_two, qvec_two_eval]
  fin_cases m <;> norm_num [Real.pi_ne_zero]

lemma christoffel_sporc_eval :
    christoffel_sporc (stiffnessEntry 1) ![-1, 0, 0]
      = !![4, 0, 0; 0, 2, 0; 0, 0, 2] := by
  ext i j
  fin_cases i <;> fin_cases j <;>
    simp [christoffel_sporc, stiffnessEntry, Fin.sum_univ_three, Fin.ext_iff,
      Matrix.vecHead, Matrix.vecTail] <;> norm_num

lemma christoffel_mac_eval :
    christoffel_mac (stiffnessEntry 1) ![-1, 0, 0]
      = !![4, 0, 0; 0, 1, 0; 0, 0, 1] := by
  ext i j
  fin_cases i <;> fin_cases j <;>
    simp [christoffel_mac, stiffnessEntry, Fin.sum_univ_three, Fin.ext_iff,
      Matrix.vecHead, Matrix.vecTail] <;> norm_num

lemma greens_sporc_eval :
    greens !![4, 0, 0; 0, 2, 0; 0, 0, 2]
      = !![4⁻¹, 0, 0; 0, 2⁻¹, 0; 0, 0, 2⁻¹] := by
  unfold greens
  rw [if_neg (by norm_num [Matrix.det_fin_three])]
  apply Matrix.inv_eq_right_inv
  ext i j
  fin_cases i <;> fin_cases j <;>
    simp [Matrix.mul_apply, Fin.sum_univ_three, Matrix.one_apply, Fin.ext_iff,
      Matrix.vecHead, Matrix.vecTail] <;> norm_num

lemma greens_mac_eval :
    greens !![4, 0, 0; 0, 1, 0; 0, 0, 1]
      = !![4⁻¹, 0, 0; 0, 1, 0; 0, 0, 1] := by
  unfold greens
  rw [if_neg (by norm_num [Matrix.det_fin_three])]
  apply Matrix.inv_eq_right_inv
  ext i j
  fin_cases i <;> fin_cases j <;>
    simp [Matrix.mul_apply, Fin.sum_univ_three, Matrix.one_apply, Fin.ext_iff,
      Matrix.vecHead, Matrix.vecTail] <;> norm_num

end ECM

/-- C1 counterexample: at the N = 2 grid point (1,0,0) (wavevector (-pi,0,0))
with anisotropy 1, the sporc_mpi6 builder gives B(q) entry (0,0,0,0) = -4,
while the spec formula C - C:n . G . n:C with the very same Green operator
gives 0: the sporc assembly does not contract the direction vector on the two
sides of G, so the claimed identity fails on that builder. -/
theorem ECM.sporc_kernel_entry_differs_from_spec_formula :
    ECM.precompute_reciprocal_space_and_kernel_sporc 2
        (ECM.stiffnessEntry 1) 1 0 0 0 0 0 0
    ≠ ECM.spec_kernel_formula (ECM.stiffnessEntry 1)
        (ECM.unitVec (ECM.qvec 2 1 0 0))
        (ECM.greens (ECM.christoffel_sporc (ECM.stiffnessEntry 1)
          (ECM.unitVec (ECM.qvec 2 1 0 0)))) 0 0 0 0 := by
  have h1 : ECM.precompute_reciprocal_space_and_kernel_sporc 2
      (ECM.stiffnessEntry 1) 1 0 0 0 0 0 0 = (-4 : ℝ) := by
    unfold ECM.precompute_reciprocal_space_and_kernel_sporc
    simp only [ECM.vnorm_qvec_two, ECM.unitVec_qvec_two]
    rw [if_neg Real.pi_ne_zero]
    unfold ECM.kernel_entry_sporc
    rw [ECM.christoffel_sporc_eval, ECM.greens_sporc_eval]
    simp [Fin.sum_univ_three, ECM.stiffnessEntry, Fin.ext_iff,
      Matrix.vecHead, Matrix.vecTail] <;> norm_num
  have h2 : ECM.spec_kernel_formula (ECM.stiffnessEntry 1)
      (ECM.unitVec (ECM.qvec 2 1 0 0))
      (ECM.greens (ECM.christoffel_sporc (ECM.stiffnessEntry 1)
        (ECM.unitVec (ECM.qvec 2 1 0 0)))) 0 0 0 0 = 0 := by
    simp only [ECM.unitVec_qvec_two]
    rw [ECM.christoffel_sporc_eval, ECM.greens_sporc_eval]
    unfold ECM.spec_kernel_formula
    simp [Fin.sum_univ_three, ECM.stiffnessEntry, Fin.ext_iff,
      Matrix.vecHead, Matrix.vecTail] <;> norm_num
  rw [h1, h2]
  norm_num

/-- C1 amended: the mac5/mac6 kernel builder does satisfy the spec identity:
at every grid point with nonzero wavevector norm its assembled entry equals
C - C:n . G . n:C with n the unit direction and G the Green operator obtained
from its acoustic tensor (matrix inverse, or zero when singular). -/
theorem ECM.mac_kernel_matches_spec_formula (N : ℕ) (C : ECM.Stiff)
    (ix iy iz : Fin N) (h : ECM.vnorm (ECM.qvec N ix iy iz) ≠ 0)
    (i j k l : Fin 3) :
    ECM.precompute_reciprocal_space_and_kernel_mac N C ix iy iz i j k l
    = ECM.spec_kernel_formula C (ECM.unitVec (ECM.qvec N ix iy iz))
        (ECM.greens (ECM.christoffel_mac C
          (ECM.unitVec (ECM.qvec N ix iy iz)))) i j k l := by
  unfold ECM.precompute_reciprocal_space_and_kernel_mac
  rw [if_neg h]
  unfold ECM.kernel_entry_mac ECM.spec_kernel_formula
  congr 1
  simp only [Fin.sum_univ_three]
  ring

/-- Witness for the amended C1 at the N = 2 grid point (1,0,0) and entry
(0,0,0,0). -/
theorem ECM.mac_kernel_matches_spec_formula_witness :
    ECM.vnorm (ECM.qvec 2 1 0 0) ≠ 0
    ∧ ECM.precompute_reciprocal_space_and_kernel_mac 2
        (ECM.stiffnessEntry 1) 1 0 0 0 0 0 0
      = ECM.spec_kernel_formula (ECM.stiffnessEntry 1)
          (ECM.unitVec (ECM.qvec 2 1 0 0))
          (ECM.greens (ECM.christoffel_mac (ECM.stiffnessEntry 1)
            (ECM.unitVec (ECM.qvec 2 1 0 0)))) 0 0 0 0 := by
  have h : ECM.vnorm (ECM.qvec 2 1 0 0) ≠ 0 := by
    rw [ECM.vnorm_qvec_two]
    exact Real.pi_ne_zero
  exact ⟨h, ECM.mac_kernel_matches_spec_formula 2 (ECM.stiffnessEntry 1)
    1 0 0 h 0 0 0 0⟩

/-- C8 counterexample: the mac5/mac6 kernel at the nonzero wavevector
(-pi,0,0) of the N = 2 grid, anisotropy 1, is NOT symmetric under swapping the
(i,j) and (k,l) pairs: entry (0,1,1,0) is -1 while entry (1,0,0,1) is 0 (a
consequence of the stiffness tensor lacking the minor symmetries). -/
theorem ECM.mac_kernel_pair_swap_asymmetric :
    ECM.precompute_reciprocal_space_and_kernel_mac 2
        (ECM.stiffnessEntry 1) 1 0 0 0 1 1 0
    ≠ ECM.precompute_reciprocal_space_and_kernel_mac 2
        (ECM.stiffnessEntry 1) 1 0 0 1 0 0 1 := by
  have h1 : ECM.precompute_reciprocal_space_and_kernel_mac 2
      (ECM.stiffnessEntry 1) 1 0 0 0 1 1 0 = (-1 : ℝ) := by
    unfold ECM.precompute_reciprocal_space_and_kernel_mac
    simp only [ECM.vnorm_qvec_two, ECM.unitVec_qvec_two]
    rw [if_neg Real.pi_ne_zero]
    unfold ECM.kernel_entry_mac
    rw [ECM.christoffel_mac_eval, ECM.greens_mac_eval]
    simp [Fin.sum_univ_three, ECM.stiffnessEntry, Fin.ext_iff,
      Matrix.vecHead, Matrix.vecTail] <;> norm_num
  have h2 : ECM.precompute_reciprocal_space_and_kernel_mac 2
      (ECM.stiffnessEntry 1) 1 0 0 1 0 0 1 = 0 := by
    unfold ECM.precompute_reciprocal_space_and_kernel_mac
    simp only [ECM.vnorm_qvec_two, ECM.unitVec_qvec_two]
    rw [if_neg Real.pi_ne_zero]
    unfold ECM.kernel_entry_mac
    rw [ECM.christoffel_mac_eval, ECM.greens_mac_eval]
    simp [Fin.sum_univ_three, ECM.stiffnessEntry, Fin.ext_iff,
      Matrix.vecHead, Matrix.vecTail] <;> norm_num
  rw [h1, h2]
  norm_num

/-- C8 amended: in both kernel builders the entry at the zero wavevector (grid
index (0,0,0)) is the zero rank-4 tensor for every grid size and stiffness
tensor; the pair-swap symmetry asserted for nonzero q does not hold. -/
theorem ECM.kernel_zero_wavevector_entry_zero (N : ℕ) (h : 0 < N)
    (C : ECM.Stiff) (i j k l : Fin 3) :
    ECM.precompute_reciprocal_space_and_kernel_sporc N C
        ⟨0, h⟩ ⟨0, h⟩ ⟨0, h⟩ i j k l = 0
    ∧ ECM.precompute_reciprocal_space_and_kernel_mac N C
        ⟨0, h⟩ ⟨0, h⟩ ⟨0, h⟩ i j k l = 0 := by
  have hq : ECM.q_range N ⟨0, h⟩ = 0 := by
    unfold ECM.q_range ECM.fftfreqZ
    have hcond : ((⟨0, h⟩ : Fin N) : ℤ) < ((N : ℤ) + 1) / 2 := by
      have : ((⟨0, h⟩ : Fin N) : ℤ) = 0 := rfl
      rw [this]
      omega
    rw [if_pos hcond]
    norm_num
  have hv : ECM.vnorm (ECM.qvec N ⟨0, h⟩ ⟨0, h⟩ ⟨0, h⟩) = 0 := by
    unfold ECM.vnorm ECM.qvec
    rw [hq]
    norm_num
  constructor
  · unfold ECM.precompute_reciprocal_space_and_kernel_sporc
    rw [if_pos hv]
  · unfold ECM.precompute_reciprocal_space_and_kernel_mac
    rw [if_pos hv]

/-- Witness for the amended C8 at N = 2, anisotropy 1, entry (0,0,0,0). -/
theorem ECM.kernel_zero_wavevector_entry_zero_witness :
    (0 < 2)
    ∧ (ECM.precompute_reciprocal_space_and_kernel_sporc 2
        (ECM.stiffnessEntry 1) ⟨0, two_pos⟩ ⟨0, two_pos⟩ ⟨0, two_pos⟩
          0 0 0 0 = 0
      ∧ ECM.precompute_reciprocal_space_and_kernel_mac 2
        (ECM.stiffnessEntry 1) ⟨0, two_pos⟩ ⟨0, two_pos⟩ ⟨0, two_pos⟩
          0 0 0 0 = 0) :=
  ⟨two_pos, ECM.kernel_zero_wavevector_entry_zero 2 two_pos
    (ECM.stiffnessEntry 1) 0 0 0 0⟩

namespace ECM

/-- compute_strain_field: per-site lookup of the reference strain selected by
the spin; any other spin value leaves the zero tensor. -/
noncomputable def compute_strain_field (N : ℕ) (lattice_spins : Grid N → ℤ)
    (e1 e2 e3 : Fin 3 → Fin 3 → ℝ) : Grid N → Fin 3 → Fin 3 → ℝ :=
  fun x =>
    if lattice_spins x = 1 then e1
    else if lattice_spins x = 2 then e2
    else if lattice_spins x = 3 then e3 else fun _ _ => 0

/-- np.fft.fftn over the three spatial axes of a matrix-valued field. -/
noncomputable def fftn (N : ℕ) (f : Grid N → Fin 3 → Fin 3 → ℝ) :
    Grid N → Fin 3 → Fin 3 → ℂ :=
  fun k i j =>
    ∑ x : Grid N, ((f x i j : ℝ) : ℂ) *
      Complex.exp (-(2 * (Real.pi : ℂ) * Complex.I *
        ((((k.1 : ℕ) * (x.1 : ℕ) + (k.2.1 : ℕ) * (x.2.1 : ℕ)
          + (k.2.2 : ℕ) * (x.2.2 : ℕ) : ℕ) : ℂ)) / (N : ℂ)))

/-- The reference strains at factor = 0 (run parameters epsilon_a = 0.0,
gamma_0 = 0.4 of the debug2 mains): diagonal unit strains. -/
noncomputable def eps1c : Fin 3 → Fin 3 → ℝ :=
  fun i j => !![1, 0, 0; 0, 0, 0; 0, 0, 0] i j

/-- Second reference strain at factor = 0. -/
noncomputable def eps2c : Fin 3 → Fin 3 → ℝ :=
  fun i j => !![0, 0, 0; 0, 1, 0; 0, 0, 0] i j

/-- Third reference strain at factor = 0. -/
noncomputable def eps3c : Fin 3 → Fin 3 → ℝ :=
  fun i j => !![0, 0, 0; 0, 0, 0; 0, 0, 1] i j

/-- A local energy evaluated on an identically-zero wavevector grid is zero
(every point is skipped). -/
lemma compute_elastic_energy_zero_grid (N : ℕ)
    (B : Grid N → Fin 3 → Fin 3 → Fin 3 → Fin 3 → ℝ)
    (strain_ft : Grid N → Fin 3 → Fin 3 → ℂ) (rank size : ℕ) :
    compute_elastic_energy N (fun _ _ => 0) B strain_ft rank size = 0 := by
  unfold compute_elastic_energy
  refine Finset.sum_eq_zero fun qx _ => Finset.sum_eq_zero fun qy _ =>
    Finset.sum_eq_zero fun qz _ => ?_
  exact if_pos rfl

/-- The total tentative energy of sporc_mpi6: the MPI sum-reduction of the
per-rank local energies, all evaluated on the tentative spectrum. -/
noncomputable def sporc_E_new (N W : ℕ) (q_grid : Grid N → Fin 3 → ℝ)
    (B : Grid N → Fin 3 → Fin 3 → Fin 3 → Fin 3 → ℝ)
    (ftNew : Grid N → Fin 3 → Fin 3 → ℂ) : ℝ :=
  ∑ r ∈ Finset.range W, compute_elastic_energy N q_grid B ftNew r W

lemma sporc_E_new_zero_grid (B : Grid 1 → Fin 3 → Fin 3 → Fin 3 → Fin 3 → ℝ)
    (ftNew : Grid 1 → Fin 3 → Fin 3 → ℂ) :
    sporc_E_new 1 1 (fun _ _ => 0) B ftNew = 0 := by
  unfold sporc_E_new
  rw [Finset.sum_range_one, compute_elastic_energy_zero_grid]

/-- monte_carlo_step of sporc_mpi6, viewed by one rank when every rank holds
the same proposal (the W = 1 instance is exact): tentatively set the proposed
spin, recompute strain field and spectrum in full, reduce the tentative
energy, and apply the Metropolis rule with draw u; on accept commit spectrum
and energy, on reject write the current spin back into the lattice and keep
spectrum and energy untouched. -/
noncomputable def monte_carlo_step_sporc (N W : ℕ)
    (q_grid : Grid N → Fin 3 → ℝ)
    (B : Grid N → Fin 3 → Fin 3 → Fin 3 → Fin 3 → ℝ)
    (e1 e2 e3 : Fin 3 → Fin 3 → ℝ) (temperature : ℝ)
    (lattice_spins : Grid N → ℤ) (strain_ft : Grid N → Fin 3 → Fin 3 → ℂ)
    (current_energy : ℝ) (site : Grid N) (proposed : ℤ) (u : ℝ) :
    Bool × (Grid N → ℤ) × (Grid N → Fin 3 → Fin 3 → ℂ) × ℝ :=
  if u < metropolis_prob
      (sporc_E_new N W q_grid B
        (fftn N (compute_strain_field N
          (Function.update lattice_spins site proposed) e1 e2 e3))
        - current_energy) temperature then
    (true, Function.update lattice_spins site proposed,
      fftn N (compute_strain_field N
        (Function.update lattice_spins site proposed) e1 e2 e3),
      sporc_E_new N W q_grid B
        (fftn N (compute_strain_field N
          (Function.update lattice_spins site proposed) e1 e2 e3)))
  else
    (false,
      Function.update (Function.update lattice_spins site proposed) site
        (lattice_spins site),
      strain_ft, current_energy)

/-- The strain field written by rank 0 of mac5 at proposal time:
strain_field_new is the SAME array object as strain_field, so this in-place
site write is also the post-step strain field on both branches. -/
noncomputable def mac5_strain_new (N : ℕ) (e1 e2 e3 : Fin 3 → Fin 3 → ℝ)
    (strain_field : Grid N → Fin 3 → Fin 3 → ℝ) (site : Grid N)
    (proposed : ℤ) : Grid N → Fin 3 → Fin 3 → ℝ :=
  Function.update strain_field site
    (if proposed = 1 then e1 else if proposed = 2 then e2
     else if proposed = 3 then e3 else strain_field site)

/-- The reduced tentative energy of mac5 (per-rank locals carry the
1 / (16 pi^3) normalization). -/
noncomputable def mac5_E_new (N W : ℕ) (q_grid : Grid N → Fin 3 → ℝ)
    (B : Grid N → Fin 3 → Fin 3 → Fin 3 → Fin 3 → ℝ)
    (sfNew : Grid N → Fin 3 → Fin 3 → ℝ) : ℝ :=
  ∑ r ∈ Finset.range W, compute_elastic_energy_mac5 N q_grid B (fftn N sfNew) r W

lemma mac5_E_new_zero_grid (B : Grid 1 → Fin 3 → Fin 3 → Fin 3 → Fin 3 → ℝ)
    (sfNew : Grid 1 → Fin 3 → Fin 3 → ℝ) :
    mac5_E_new 1 1 (fun _ _ => 0) B sfNew = 0 := by
  unfold mac5_E_new compute_elastic_energy_mac5
  rw [Finset.sum_range_one, compute_elastic_energy_zero_grid, zero_div]

/-- Per-rank view of the post-step state of mac5. -/
structure Mac5Result (N : ℕ) where
  spins : Grid N → ℤ
  strain_field : Grid N → Fin 3 → Fin 3 → ℝ
  accepted : Bool
  energy : ℝ

/-- monte_carlo_step of mac5 with W ranks: rank 0 draws site, proposed spin
and u, writes the proposed strain into the (aliased) strain field, broadcasts
the tentative spectrum, the reduced energy and the decision, and broadcasts
lattice and strain field after deciding; current_energy is updated only in
the rank-0 branch and is NOT broadcast, so only rank 0 sees the new energy
after an accept. -/
noncomputable def mac5_par_step (N W : ℕ) (q_grid : Grid N → Fin 3 → ℝ)
    (B : Grid N → Fin 3 → Fin 3 → Fin 3 → Fin 3 → ℝ)
    (e1 e2 e3 : Fin 3 → Fin 3 → ℝ) (temperature : ℝ)
    (lattice_spins : Grid N → ℤ) (strain_field : Grid N → Fin 3 → Fin 3 → ℝ)
    (current_energy : ℝ) (site : Grid N) (proposed : ℤ) (u : ℝ) :
    Fin W → Mac5Result N :=
  fun r =>
    if u < metropolis_prob
        (mac5_E_new N W q_grid B
          (mac5_strain_new N e1 e2 e3 strain_field site proposed)
          - current_energy) temperature then
      ⟨Function.update lattice_spins site proposed,
        mac5_strain_new N e1 e2 e3 strain_field site proposed, true,
        if (r : ℕ) = 0 then
          mac5_E_new N W q_grid B
            (mac5_strain_new N e1 e2 e3 strain_field site proposed)
        else current_energy⟩
    else
      ⟨lattice_spins, mac5_strain_new N e1 e2 e3 strain_field site proposed,
        false, current_energy⟩

/-- The per-rank tentative energy reduction of sporc_mpi6 when rank r has its
own independent proposal: rank r computes its local slab on the spectrum of
ITS OWN tentative lattice, and the reduce sums these heterogeneous locals. -/
noncomputable def sporc_par_E_new (N W : ℕ) (q_grid : Grid N → Fin 3 → ℝ)
    (B : Grid N → Fin 3 → Fin 3 → Fin 3 → Fin 3 → ℝ)
    (e1 e2 e3 : Fin 3 → Fin 3 → ℝ) (lattice_spins : Grid N → ℤ)
    (proposals : Fin W → Grid N × ℤ) : ℝ :=
  ∑ r : Fin W,
    compute_elastic_energy N q_grid B
      (fftn N (compute_strain_field N
        (Function.update lattice_spins (proposals r).1 (proposals r).2)
        e1 e2 e3)) (r : ℕ) W

/-- monte_carlo_step of sporc_mpi6 as executed by W ranks with unsynchronized
random state: every rank draws its own site, proposed spin and uniform draw
(nothing is broadcast), the energy reduce and bcast give all ranks the same
E_new, and each rank applies the Metropolis decision with its own draw to its
own lattice. -/
noncomputable def sporc_par_step (N W : ℕ) (q_grid : Grid N → Fin 3 → ℝ)
    (B : Grid N → Fin 3 → Fin 3 → Fin 3 → Fin 3 → ℝ)
    (e1 e2 e3 : Fin 3 → Fin 3 → ℝ) (temperature : ℝ)
    (lattice_spins : Grid N → ℤ) (strain_ft : Grid N → Fin 3 → Fin 3 → ℂ)
    (current_energy : ℝ) (proposals : Fin W → Grid N × ℤ)
    (us : Fin W → ℝ) :
    Fin W → Bool × (Grid N → ℤ) × (Grid N → Fin 3 → Fin 3 → ℂ) × ℝ :=
  fun r =>
    if us r < metropolis_prob
        (sporc_par_E_new N W q_grid B e1 e2 e3 lattice_spins proposals
          - current_energy) temperature then
      (true, Function.update lattice_spins (proposals r).1 (proposals r).2,
        fftn N (compute_strain_field N
          (Function.update lattice_spins (proposals r).1 (proposals r).2)
          e1 e2 e3),
        sporc_par_E_new N W q_grid B e1 e2 e3 lattice_spins proposals)
    else
      (false,
        Function.update
          (Function.update lattice_spins (proposals r).1 (proposals r).2)
          (proposals r).1 (lattice_spins (proposals r).1),
        strain_ft, current_energy)

end ECM

/-- C3 (bug in mac5): one step on a one-site lattice of spin 1 with proposed
spin 2, wavevector grid identically zero (so the tentative energy is 0, the
energy difference is 0, the probability is 1) and draw u = 1, which rejects.
In mac5 the rejected step conserves the lattice and the energy but leaves the
strain field mutated at the proposal site (strain_field_new aliases
strain_field and is never reverted), so the strain field is NOT bit-identical
to its pre-proposal value; the sporc_mpi6 step at the same inputs conserves
lattice, spectrum and energy as the claim states. -/
theorem ECM.mac5_rejected_proposal_mutates_strain_field :
    ((ECM.mac5_par_step 1 1 (fun _ _ => 0) (fun _ _ _ _ _ => 0)
        ECM.eps1c ECM.eps2c ECM.eps3c 2 (fun _ => 1) (fun _ => ECM.eps1c) 0
        (0, 0, 0) 2 1) 0).accepted = false
    ∧ ((ECM.mac5_par_step 1 1 (fun _ _ => 0) (fun _ _ _ _ _ => 0)
        ECM.eps1c ECM.eps2c ECM.eps3c 2 (fun _ => 1) (fun _ => ECM.eps1c) 0
        (0, 0, 0) 2 1) 0).spins = (fun _ => 1)
    ∧ ((ECM.mac5_par_step 1 1 (fun _ _ => 0) (fun _ _ _ _ _ => 0)
        ECM.eps1c ECM.eps2c ECM.eps3c 2 (fun _ => 1) (fun _ => ECM.eps1c) 0
        (0, 0, 0) 2 1) 0).energy = 0
    ∧ ((ECM.mac5_par_step 1 1 (fun _ _ => 0) (fun _ _ _ _ _ => 0)
        ECM.eps1c ECM.eps2c ECM.eps3c 2 (fun _ => 1) (fun _ => ECM.eps1c) 0
        (0, 0, 0) 2 1) 0).strain_field ≠ (fun _ => ECM.eps1c)
    ∧ (ECM.monte_carlo_step_sporc 1 1 (fun _ _ => 0) (fun _ _ _ _ _ => 0)
        ECM.eps1c ECM.eps2c ECM.eps3c 2 (fun _ => 1) (fun _ _ _ => 0) 0
        (0, 0, 0) 2 1)
      = (false, fun _ => 1, fun _ _ _ => 0, 0) := by
  have hrej : ¬ ((1 : ℝ) < ECM.metropolis_prob
      (ECM.mac5_E_new 1 1 (fun _ _ => 0) (fun _ _ _ _ _ => 0)
        (ECM.mac5_strain_new 1 ECM.eps1c ECM.eps2c ECM.eps3c
          (fun _ => ECM.eps1c) (0, 0, 0) 2) - 0) 2) := by
    rw [ECM.mac5_E_new_zero_grid]
    unfold ECM.metropolis_prob
    norm_num
  have hstep : (ECM.mac5_par_step 1 1 (fun _ _ => 0) (fun _ _ _ _ _ => 0)
      ECM.eps1c ECM.eps2c ECM.eps3c 2 (fun _ => 1) (fun _ => ECM.eps1c) 0
      (0, 0, 0) 2 1) 0
      = ⟨fun _ => 1,
          ECM.mac5_strain_new 1 ECM.eps1c ECM.eps2c ECM.eps3c
            (fun _ => ECM.eps1c) (0, 0, 0) 2, false, 0⟩ := by
    unfold ECM.mac5_par_step
    rw [if_neg hrej]
  have hrej2 : ¬ ((1 : ℝ) < ECM.metropolis_prob
      (ECM.sporc_E_new 1 1 (fun _ _ => 0) (fun _ _ _ _ _ => 0)
        (ECM.fftn 1 (ECM.compute_strain_field 1
          (Function.update (fun _ => 1) ((0, 0, 0) : ECM.Grid 1) 2)
          ECM.eps1c ECM.eps2c ECM.eps3c)) - 0) 2) := by
    rw [ECM.sporc_E_new_zero_grid]
    unfold ECM.metropolis_prob
    norm_num
  refine ⟨?_, ?_, ?_, ?_, ?_⟩
  · rw [hstep]
  · rw [hstep]
  · rw [hstep]
  · rw [hstep]
    intro h
    have h2 := congrFun h ((0, 0, 0) : ECM.Grid 1)
    simp only [ECM.mac5_strain_new, Function.update_same] at h2
    norm_num at h2
    have h3 := congrFun (congrFun h2 0) 0
    simp [ECM.eps1c, ECM.eps2c] at h3
  · unfold ECM.monte_carlo_step_sporc
    rw [if_neg hrej2]
    rw [Function.update_idem, Function.update_eq_self]

/-- C4 counterexample: in the sporc_mpi6 protocol each worker draws its own
proposal and decision; with 2 workers on a one-site lattice of spin 1, worker
0 proposing spin 2 and worker 1 proposing spin 3, both with draw 0 (which
always accepts since the probability is positive), the two workers hold
different lattices after the step, refuting bit-for-bit replica identity for
every worker count. -/
theorem ECM.sporc_workers_diverge_after_step :
    ((ECM.sporc_par_step 1 2 (fun _ _ => 0) (fun _ _ _ _ _ => 0)
        ECM.eps1c ECM.eps2c ECM.eps3c 1 (fun _ => 1) (fun _ _ _ => 0) 0
        ![((0, 0, 0), 2), ((0, 0, 0), 3)] (fun _ => 0)) 0).2.1
    ≠ ((ECM.sporc_par_step 1 2 (fun _ _ => 0) (fun _ _ _ _ _ => 0)
        ECM.eps1c ECM.eps2c ECM.eps3c 1 (fun _ => 1) (fun _ _ _ => 0) 0
        ![((0, 0, 0), 2), ((0, 0, 0), 3)] (fun _ => 0)) 1).2.1 := by
  intro h
  have h2 := congrFun h ((0, 0, 0) : ECM.Grid 1)
  unfold ECM.sporc_par_step at h2
  rw [if_pos (ECM.metropolis_prob_pos _ _), if_pos (ECM.metropolis_prob_pos _ _)]
    at h2
  simp only [Matrix.cons_val_zero, Matrix.cons_val_one, Matrix.head_cons] at h2
  rw [Function.update_same, Function.update_same] at h2
  norm_num at h2

/-- C4 amended (the mac5/mac6 protocol): with rank 0 drawing the proposal and
the decision and broadcasting lattice, strain field and flag, every pair of
ranks holds the same lattice, the same strain field and the same decision
after the step, for every worker count (the energy scalar, however, is only
updated on rank 0). -/
theorem ECM.mac5_step_replicas_agree (N W : ℕ) (q_grid : ECM.Grid N → Fin 3 → ℝ)
    (B : ECM.Grid N → Fin 3 → Fin 3 → Fin 3 → Fin 3 → ℝ)
    (e1 e2 e3 : Fin 3 → Fin 3 → ℝ) (temperature : ℝ)
    (lattice_spins : ECM.Grid N → ℤ)
    (strain_field : ECM.Grid N → Fin 3 → Fin 3 → ℝ)
    (current_energy : ℝ) (site : ECM.Grid N) (proposed : ℤ) (u : ℝ)
    (r rr : Fin W) :
    ((ECM.mac5_par_step N W q_grid B e1 e2 e3 temperature lattice_spins
        strain_field current_energy site proposed u) r).spins
      = ((ECM.mac5_par_step N W q_grid B e1 e2 e3 temperature lattice_spins
        strain_field current_energy site proposed u) rr).spins
    ∧ ((ECM.mac5_par_step N W q_grid B e1 e2 e3 temperature lattice_spins
        strain_field current_energy site proposed u) r).strain_field
      = ((ECM.mac5_par_step N W q_grid B e1 e2 e3 temperature lattice_spins
        strain_field current_energy site proposed u) rr).strain_field
    ∧ ((ECM.mac5_par_step N W q_grid B e1 e2 e3 temperature lattice_spins
        strain_field current_energy site proposed u) r).accepted
      = ((ECM.mac5_par_step N W q_grid B e1 e2 e3 temperature lattice_spins
        strain_field current_energy site proposed u) rr).accepted := by
  unfold ECM.mac5_par_step
  split_ifs <;> exact ⟨rfl, rfl, rfl⟩
